import Mathlib

/-!
Verification of the gsplat tile-based rasterization core.

This file gives a shallow embedding, over exact rational arithmetic, of

* the per-pixel front-to-back alpha-compositing loop of
  `rasterize_to_pixels_fwd_kernel` (rasterize_to_pixels_fwd.cu, lines 76-157),
* the channel-count dispatch switch of `rasterize_to_pixels_fwd_tensor`
  (lines 183-537),
* the gradient-accumulation structure (warp-level group sums followed by one
  atomic add per distinct id) and the optional-tensor validation of
  `fully_fused_projection_packed_bwd_kernel` / `_tensor`
  (fully_fused_projection_packed_bwd.cu, lines 125-222 and 266-269),

and proves the specified properties of those pieces.

The CUDA kernel works in `float`; the embedding uses `ℚ`, so the theorems
describe the ideal (exact-arithmetic) semantics of the code's control flow and
accumulation structure.  `__expf` is modelled by an arbitrary function
`e : ℚ → ℚ`, over which all statements are universally quantified: none of the
verified control-flow properties depends on any analytic property of exp.
-/

namespace Gsplat

/-- One visibility record as consumed by the per-pixel loop of
`rasterize_to_pixels_fwd_kernel`: 2D mean (`means2d`), conic (`conics`),
opacity (`opacities`) and a color vector of length `COLOR_DIM` (`colors`). -/
structure Gauss2D where
  meanX : ℚ
  meanY : ℚ
  conicX : ℚ
  conicY : ℚ
  conicZ : ℚ
  opacity : ℚ
  color : List ℚ
deriving Repr, DecidableEq

/-- Per-pixel mutable state of `rasterize_to_pixels_fwd_kernel`: running
transmittance `T` (line 76), last-contributor index `cur_idx` (line 78),
accumulated color `pix_out` (line 85) and the per-pixel `done` flag
(line 54). -/
structure PixState where
  T : ℚ
  curIdx : ℕ
  pixOut : List ℚ
  done : Bool
deriving Repr, DecidableEq

/-- The Gaussian density exponent of lines 115-118:
`delta = (mean.x - px, mean.y - py)` and
`sigma = 0.5 * (conic.x * dx^2 + conic.z * dy^2) + conic.y * dx * dy`
evaluated at `delta`.  Note the code's `delta` is mean minus pixel center. -/
def sigmaAt (g : Gauss2D) (px py : ℚ) : ℚ :=
  1/2 * (g.conicX * (g.meanX - px) * (g.meanX - px)
      + g.conicZ * (g.meanY - py) * (g.meanY - py))
    + g.conicY * (g.meanX - px) * (g.meanY - py)

/-- Line 119: `alpha = min(0.999f, opac * __expf(-sigma))`, with `__expf`
abstracted as `e`. -/
def alphaOf (e : ℚ → ℚ) (g : Gauss2D) (sigma : ℚ) : ℚ :=
  min (999/1000) (g.opacity * e (-sigma))

/-- One iteration of the inner batch loop, lines 111-140, for the record `g`
whose flattened index (`batch_start + t`) is `idx`.  The `done` guard models
both the loop condition `(t < batch_size) && !done` and the batch-level early
exit (a `done` pixel processes no further records).  The three branches are:
the `continue` of lines 120-122, the early-termination `break` of lines
124-128 (which only sets `done`), and the accumulation of lines 130-139. -/
def procRecord (e : ℚ → ℚ) (px py : ℚ) (idx : ℕ) (g : Gauss2D)
    (s : PixState) : PixState :=
  if s.done then s
  else if sigmaAt g px py < 0 ∨ alphaOf e g (sigmaAt g px py) < 1/255 then s
  else if s.T * (1 - alphaOf e g (sigmaAt g px py)) ≤ 1/10000 then
    { s with done := true }
  else
    { T := s.T * (1 - alphaOf e g (sigmaAt g px py))
      curIdx := idx
      pixOut := List.zipWith
        (fun c o => o + c * (alphaOf e g (sigmaAt g px py) * s.T))
        g.color s.pixOut
      done := false }

/-- Initial per-pixel state for an in-bounds pixel: `T = 1.0f` (line 76),
`cur_idx = 0` (line 78), `pix_out[COLOR_DIM] = {0.f}` (line 85),
`done = false` (line 54). -/
def initPixState (dim : ℕ) : PixState :=
  { T := 1, curIdx := 0, pixOut := List.replicate dim 0, done := false }

/-- Sequentially process a list of records starting at flattened index `i`,
as one pixel observes the tile's depth-ordered range (the batching of lines
86-110 only changes how records are staged, not the order or the per-pixel
effect of processing them). -/
def runFrom (e : ℚ → ℚ) (px py : ℚ) : PixState → ℕ → List Gauss2D → PixState
  | s, _, [] => s
  | s, i, g :: gs => runFrom e px py (procRecord e px py i g s) (i + 1) gs

/-- The whole per-pixel compositing loop over a tile's record range
`[rangeStart, rangeStart + recs.length)` for an in-bounds pixel. -/
def runPix (e : ℚ → ℚ) (px py : ℚ) (rangeStart dim : ℕ)
    (recs : List Gauss2D) : PixState :=
  runFrom e px py (initPixState dim) rangeStart recs

/-- The three per-pixel outputs written by lines 143-157. -/
structure PixOutput where
  coverage : ℚ
  colors : List ℚ
  lastId : ℕ
deriving Repr, DecidableEq

/-- Finalization for an in-bounds pixel, lines 143-157:
`render_alphas = 1 - T`, `render_colors[k] = pix_out[k]` or
`pix_out[k] + T * backgrounds[k]` if a background is supplied, and
`last_ids = cur_idx`. -/
def finalizePixel (bg : Option (List ℚ)) (s : PixState) : PixOutput :=
  { coverage := 1 - s.T
    colors :=
      match bg with
      | none => s.pixOut
      | some b => List.zipWith (fun o bk => o + s.T * bk) s.pixOut b
    lastId := s.curIdx }

/-! ### Concrete instances used in witnesses and counterexamples -/

/-- A concrete stand-in for the abstract exponential: the constant `1`
(so `opacity * e (-sigma) = opacity`). -/
def e0 : ℚ → ℚ := fun _ => 1

/-- A record whose conic vanishes (so `sigma = 0` everywhere) with opacity 1:
under `e0` it yields `alpha = min(0.999, 1) = 0.999`. -/
def g0 : Gauss2D :=
  { meanX := 0, meanY := 0, conicX := 0, conicY := 0, conicZ := 0,
    opacity := 1, color := [1] }

/-- A record with opacity 0: under `e0` it yields `alpha = 0 < 1/255`, so it
is always skipped by the negligible-contribution test. -/
def gskip : Gauss2D :=
  { meanX := 0, meanY := 0, conicX := 0, conicY := 0, conicZ := 0,
    opacity := 0, color := [1] }

/-- The pixel state reached from the initial state after applying `g0` once
at pixel center `(0,0)`: `T = 1/1000`, still not done. -/
def s0 : PixState := procRecord e0 0 0 0 g0 (initPixState 1)

/-! ### Gradient accumulation structure of
`fully_fused_projection_packed_bwd_kernel` (lines 125-222)

The kernel runs one thread per visibility record `idx < nnz`, partitioned
into warps of 32 consecutive threads (`cg::tiled_partition<32>`, line 125).
The per-record gradient values (`v_mean`, `v_covar`, `v_quat`, `v_scale`,
`v_R`, `v_t`) are computed by the VJP chain of lines 52-123 from the record's
inputs alone, identically in both layouts; here each scalar component of such
a per-record gradient is abstracted as a function `f : ℕ → ℚ` of the record
index, and the per-record camera/gaussian ids as `cidOf, gidOf : ℕ → ℕ`. -/

/-- The warp partition of the record index space `[0, nnz)` into consecutive
chunks of 32 (the warp size of `cg::tiled_partition<32>`). -/
def chunksOf32 (l : List ℕ) : List (List ℕ) :=
  if h : l = [] then []
  else l.take 32 :: chunksOf32 (l.drop 32)
termination_by l.length
decreasing_by
  simp only [List.length_drop]
  have hl : l.length ≠ 0 := fun hl => h (List.length_eq_zero.mp hl)
  omega

/-- The value one `cg::labeled_partition(warp, gid)` group contributes for key
`g`: the sum of the per-record values of the warp's members whose id is `g`
(`warpSum`, lines 162-164), issued as a single atomic add by the group's
rank-0 thread (lines 165-171).  A key with no member in the warp contributes
nothing; the empty sum `0` models that. -/
def warpGroupSum (gidOf : ℕ → ℕ) (f : ℕ → ℚ) (warp : List ℕ) (g : ℕ) : ℚ :=
  ((warp.filter fun i => gidOf i == g).map f).sum

/-- Dense-mode accumulated total for primitive id `g` (lines 158-205): the
zero-initialized accumulator after every warp group's single atomic add. -/
def denseGradTotal (gidOf : ℕ → ℕ) (f : ℕ → ℚ) (nnz g : ℕ) : ℚ :=
  ((chunksOf32 (List.range nnz)).map fun w => warpGroupSum gidOf f w g).sum

/-- The sum, grouped by primitive id `g`, of the per-record values that sparse
mode writes to its one-slot-per-record output (lines 126-157). -/
def sparseGradTotal (gidOf : ℕ → ℕ) (f : ℕ → ℚ) (nnz g : ℕ) : ℚ :=
  (((List.range nnz).filter fun i => gidOf i == g).map f).sum

/-- What one record adds to entry `(i, j)` of its camera's `[4, 4]` extrinsic
gradient (lines 213-220): `v_R[j][i]` for `i, j < 3`, `v_t[i]` for `j = 3`,
and nothing on the fourth row (left at its zero initialization). -/
def viewmatRecordContrib (vR : ℕ → Fin 3 → Fin 3 → ℚ) (vT : ℕ → Fin 3 → ℚ)
    (idx : ℕ) (i j : Fin 4) : ℚ :=
  if hi : (i : ℕ) < 3 then
    if hj : (j : ℕ) < 3 then vR idx ⟨(j : ℕ), hj⟩ ⟨(i : ℕ), hi⟩
    else vT idx ⟨(i : ℕ), hi⟩
  else 0

/-- The camera-extrinsic gradient output of the packed projection backward
pass: `none` when extrinsic gradients are not requested (`v_viewmats` is a
null pointer), else for each camera `c` the per-entry total accumulated by
warp-level `labeled_partition(warp, cid)` group sums followed by one atomic
add per distinct camera id per warp (kernel lines 206-222).  The kernel block
sits outside the `if (sparse_grad)` branch and the entry point allocates a
zeroed `[C, 4, 4]` buffer in both branches (lines 285-287 and 296-298), so
the body does not depend on `sparse_grad`. -/
def vViewmatsOut (sparse_grad viewmats_requires_grad : Bool) (cidOf : ℕ → ℕ)
    (vR : ℕ → Fin 3 → Fin 3 → ℚ) (vT : ℕ → Fin 3 → ℚ) (nnz : ℕ) :
    Option (ℕ → Fin 4 → Fin 4 → ℚ) :=
  if viewmats_requires_grad then
    some fun c i j =>
      ((chunksOf32 (List.range nnz)).map fun w =>
        ((w.filter fun idx => cidOf idx == c).map
          fun idx => viewmatRecordContrib vR vT idx i j).sum).sum
  else none

/-! ### Entry-point dispatch and validation -/

/-- The channel counts enumerated by the `switch (channels)` of
`rasterize_to_pixels_fwd_tensor` (lines 211-534). -/
def supportedChannelCounts : List ℕ :=
  [1, 2, 3, 4, 5, 8, 9, 16, 17, 32, 33, 64, 65, 128, 129, 256, 257, 512, 513]

/-- The `switch (channels)` dispatch of `rasterize_to_pixels_fwd_tensor`
(lines 211-537): each enumerated case instantiates and launches the kernel at
that compile-time channel count (modelled by the abstract `kernel`); the
`default` case raises `AT_ERROR("Unsupported number of channels: ", channels)`
instead, modelled as `Except.error`, so no output tensors are returned and no
kernel runs. -/
def rasterize_to_pixels_fwd_dispatch {α : Type} (channels : ℕ)
    (kernel : ℕ → α) : Except String α :=
  if channels = 1 then .ok (kernel 1)
  else if channels = 2 then .ok (kernel 2)
  else if channels = 3 then .ok (kernel 3)
  else if channels = 4 then .ok (kernel 4)
  else if channels = 5 then .ok (kernel 5)
  else if channels = 8 then .ok (kernel 8)
  else if channels = 9 then .ok (kernel 9)
  else if channels = 16 then .ok (kernel 16)
  else if channels = 17 then .ok (kernel 17)
  else if channels = 32 then .ok (kernel 32)
  else if channels = 33 then .ok (kernel 33)
  else if channels = 64 then .ok (kernel 64)
  else if channels = 65 then .ok (kernel 65)
  else if channels = 128 then .ok (kernel 128)
  else if channels = 129 then .ok (kernel 129)
  else if channels = 256 then .ok (kernel 256)
  else if channels = 257 then .ok (kernel 257)
  else if channels = 512 then .ok (kernel 512)
  else if channels = 513 then .ok (kernel 513)
  else .error ("Unsupported number of channels: " ++ toString channels)

/-- The optional-tensor consistency check of
`fully_fused_projection_packed_bwd_tensor` (lines 266-269): if a compensation
gradient `v_compensations` is supplied, the forward `compensations` tensor
must be present (`assert(compensations.has_value())`), checked before the
kernel launch of line 301. -/
def projBwdValidateCompensations {α β : Type} (compensations : Option α)
    (v_compensations : Option β) : Except String Unit :=
  match v_compensations with
  | some _ =>
    match compensations with
    | some _ => .ok ()
    | none => .error "assert failed: compensations.has_value()"
  | none => .ok ()

/-- The projection backward entry point, reduced to the part the claim is
about: validation happens first, and the parallel dispatch (the abstract
`run`, standing for the kernel launch of lines 300-321 and the returned
gradient tuple) happens only if validation passes; on error no results are
produced at all. -/
def fully_fused_projection_packed_bwd_entry {α β γ : Type}
    (compensations : Option α) (v_compensations : Option β)
    (run : Unit → γ) : Except String γ :=
  match projBwdValidateCompensations compensations v_compensations with
  | .ok _ => .ok (run ())
  | .error msg => .error msg

/-! ### Helper lemmas about the compositing step -/

/-- A record never raises `alpha` above `0.999` (the `min` of line 119). -/
theorem alphaOf_le (e : ℚ → ℚ) (g : Gauss2D) (sigma : ℚ) :
    alphaOf e g sigma ≤ 999/1000 :=
  min_le_left _ _

/-- A `done` pixel is unaffected by any further record. -/
theorem procRecord_done (e : ℚ → ℚ) (px py : ℚ) (idx : ℕ) (g : Gauss2D)
    (s : PixState) (h : s.done = true) : procRecord e px py idx g s = s := by
  simp [procRecord, h]

/-- A `done` pixel is unaffected by any remaining suffix of records. -/
theorem runFrom_done (e : ℚ → ℚ) (px py : ℚ) (l : List Gauss2D) (s : PixState)
    (i : ℕ) (h : s.done = true) : runFrom e px py s i l = s := by
  induction l generalizing s i with
  | nil => rfl
  | cons g gs ih =>
    simp only [runFrom, procRecord_done e px py i g s h]
    exact ih s (i + 1) h

/-- One step keeps the transmittance nonnegative and never increases it:
the applied branch multiplies `T` by `1 - alpha` with
`alpha ∈ [1/255, 999/1000]`, and every other branch leaves `T` unchanged. -/
theorem procRecord_T_bounds (e : ℚ → ℚ) (px py : ℚ) (idx : ℕ) (g : Gauss2D)
    (s : PixState) (h : 0 ≤ s.T) :
    0 ≤ (procRecord e px py idx g s).T ∧ (procRecord e px py idx g s).T ≤ s.T := by
  unfold procRecord
  split_ifs with h1 h2 h3
  · exact ⟨h, le_rfl⟩
  · exact ⟨h, le_rfl⟩
  · exact ⟨h, le_rfl⟩
  · push_neg at h2
    have ha1 : 1/255 ≤ alphaOf e g (sigmaAt g px py) := h2.2
    have ha2 : alphaOf e g (sigmaAt g px py) ≤ 999/1000 := alphaOf_le e g _
    dsimp only
    constructor
    · exact mul_nonneg h (by linarith)
    · nlinarith

/-- Along any record suffix the transmittance stays nonnegative and never
increases. -/
theorem runFrom_T_bounds (e : ℚ → ℚ) (px py : ℚ) (l : List Gauss2D)
    (s : PixState) (i : ℕ) (h : 0 ≤ s.T) :
    0 ≤ (runFrom e px py s i l).T ∧ (runFrom e px py s i l).T ≤ s.T := by
  induction l generalizing s i with
  | nil => exact ⟨h, le_rfl⟩
  | cons g gs ih =>
    have hp := procRecord_T_bounds e px py i g s h
    have hr := ih (procRecord e px py i g s) (i + 1) hp.1
    exact ⟨hr.1, le_trans hr.2 hp.2⟩

/-- One step keeps the transmittance strictly above the `1e-4` cutoff: the
applied branch requires `next_T > 1e-4` (line 125 is exclusive), and every
other branch leaves `T` unchanged. -/
theorem procRecord_T_gt (e : ℚ → ℚ) (px py : ℚ) (idx : ℕ) (g : Gauss2D)
    (s : PixState) (h : 1/10000 < s.T) :
    1/10000 < (procRecord e px py idx g s).T := by
  unfold procRecord
  split_ifs with h1 h2 h3
  · exact h
  · exact h
  · exact h
  · dsimp only
    exact lt_of_not_ge (fun hc => h3 hc)

/-- Along any record suffix the transmittance stays strictly above the
`1e-4` cutoff. -/
theorem runFrom_T_gt (e : ℚ → ℚ) (px py : ℚ) (l : List Gauss2D) (s : PixState)
    (i : ℕ) (h : 1/10000 < s.T) : 1/10000 < (runFrom e px py s i l).T := by
  induction l generalizing s i with
  | nil => exact h
  | cons g gs ih => exact ih _ (i + 1) (procRecord_T_gt e px py i g s h)

/-- Processing a concatenation processes the first part, then the second,
with the flattened index advanced by the first part's length. -/
theorem runFrom_append (e : ℚ → ℚ) (px py : ℚ) (l1 l2 : List Gauss2D)
    (s : PixState) (i : ℕ) :
    runFrom e px py s i (l1 ++ l2) =
      runFrom e px py (runFrom e px py s i l1) (i + l1.length) l2 := by
  induction l1 generalizing s i with
  | nil => simp [runFrom]
  | cons g gs ih =>
    simp only [List.cons_append, runFrom, List.length_cons, List.append_eq]
    have h2 : i + 1 + gs.length = i + (gs.length + 1) := by omega
    rw [ih, h2]

/-- A record failing the `sigma < 0` / `alpha < 1/255` tests leaves the state
completely unchanged (the `continue` of lines 120-122). -/
theorem procRecord_skip (e : ℚ → ℚ) (px py : ℚ) (idx : ℕ) (g : Gauss2D)
    (s : PixState)
    (h : sigmaAt g px py < 0 ∨ alphaOf e g (sigmaAt g px py) < 1/255) :
    procRecord e px py idx g s = s := by
  unfold procRecord
  split_ifs with h1 <;> rfl

/-- If every record of a range is skipped by the negligible-contribution
tests, the state after the whole range is the state before it. -/
theorem runFrom_all_skip (e : ℚ → ℚ) (px py : ℚ) (l : List Gauss2D)
    (s : PixState) (i : ℕ)
    (h : ∀ g ∈ l, sigmaAt g px py < 0 ∨ alphaOf e g (sigmaAt g px py) < 1/255) :
    runFrom e px py s i l = s := by
  induction l generalizing s i with
  | nil => rfl
  | cons g gs ih =>
    simp only [runFrom, procRecord_skip e px py i g s (h g (List.Mem.head _))]
    exact ih s (i + 1) fun x hx => h x (List.Mem.tail _ hx)

/-- Compositing a zero accumulated color over a background with full
transmittance returns the background itself. -/
theorem zipWith_zero_background (b : List ℚ) :
    List.zipWith (fun o bk => o + bk) (List.replicate b.length (0:ℚ)) b
      = b := by
  induction b with
  | nil => rfl
  | cons x xs ih => simp [List.replicate_succ, ih]

/-- The warp chunks concatenate back to the full record index list. -/
theorem chunksOf32_join (l : List ℕ) : (chunksOf32 l).flatten = l := by
  have H : ∀ (n : ℕ) (l : List ℕ), l.length ≤ n → (chunksOf32 l).flatten = l := by
    intro n
    induction n with
    | zero =>
      intro l hl
      have hnil : l = [] := List.length_eq_zero.mp (Nat.le_zero.mp hl)
      subst hnil
      rw [chunksOf32]
      simp
    | succ n ih =>
      intro l hl
      rw [chunksOf32]
      split_ifs with h
      · simp [h]
      · have hlt : (l.drop 32).length ≤ n := by
          simp only [List.length_drop]
          have h0 : l.length ≠ 0 := fun h0 => h (List.length_eq_zero.mp h0)
          omega
        calc (l.take 32 :: chunksOf32 (l.drop 32)).flatten
            = l.take 32 ++ (chunksOf32 (l.drop 32)).flatten := by
              simp [List.flatten]
          _ = l.take 32 ++ l.drop 32 := by rw [ih _ hlt]
          _ = l := List.take_append_drop _ _
  exact H l.length l le_rfl

/-- Summing per-chunk filtered sums equals one filtered sum over the
concatenation of the chunks. -/
theorem sum_filtered_chunks (p : ℕ → Bool) (f : ℕ → ℚ) (ls : List (List ℕ)) :
    (ls.map fun w => ((w.filter p).map f).sum).sum
      = ((ls.flatten.filter p).map f).sum := by
  induction ls with
  | nil => rfl
  | cons w ws ih => simp [List.filter_append, ih]

/-- The conic of `g0` vanishes, so its density exponent at the pixel center
`(0,0)` is `0`. -/
theorem sigmaAt_g0 : sigmaAt g0 0 0 = 0 := by
  norm_num [sigmaAt, g0]

/-- Under the constant exponential `e0`, the record `g0` yields
`alpha = min(0.999, 1 * 1) = 0.999`. -/
theorem alphaOf_e0_g0 : alphaOf e0 g0 0 = 999/1000 := by
  norm_num [alphaOf, e0, g0, min_def]

/-- The color vector of `g0`. -/
theorem g0_color : g0.color = [1] := rfl

/-- Evaluating one applied step from the initial state: `g0` is applied
(`next_T = 1/1000 > 1e-4`), leaving transmittance `1/1000` and the pixel not
yet terminated. -/
theorem s0_eval :
    s0 = { T := 1/1000, curIdx := 0, pixOut := [999/1000], done := false } := by
  unfold s0 procRecord initPixState
  norm_num [sigmaAt_g0, alphaOf_e0_g0, g0_color, List.zipWith]

/-- Claim C1.  For every record processed at a pixel, the computed density
exponent equals the conic quadratic form
`0.5*(conic.x*dx^2 + conic.z*dy^2) + conic.y*dx*dy` evaluated at
`(dx, dy) =` pixel center minus the record's 2D mean.  The code computes
`delta` as mean minus pixel center (line 115), but the quadratic form is even,
so its value at pixel-minus-mean is identical. -/
theorem claim_C1_sigma_quadratic_form (g : Gauss2D) (px py : ℚ) :
    sigmaAt g px py =
      1/2 * (g.conicX * (px - g.meanX) * (px - g.meanX)
          + g.conicZ * (py - g.meanY) * (py - g.meanY))
        + g.conicY * (px - g.meanX) * (py - g.meanY) := by
  unfold sigmaAt
  ring

/-- Claim C2, counterexample.  The claim's "if and only if" fails: from the
reachable state `s0` (reached after one applied record, `T = 1/1000`, not yet
terminated), the next record `g0` passes both the `sigma < 0` and the
`alpha < 1/255` tests, yet contributes nothing — color, transmittance and
last-contributor index are all unchanged — because `T * (1 - alpha) =
1/1000000 ≤ 1e-4` takes the early-termination branch (lines 124-128). -/
theorem claim_C2_counterexample :
    s0.done = false ∧
    ¬(sigmaAt g0 0 0 < 0 ∨ alphaOf e0 g0 (sigmaAt g0 0 0) < 1/255) ∧
    (procRecord e0 0 0 1 g0 s0).T = s0.T ∧
    (procRecord e0 0 0 1 g0 s0).pixOut = s0.pixOut ∧
    (procRecord e0 0 0 1 g0 s0).curIdx = s0.curIdx := by
  have hstep : procRecord e0 0 0 1 g0 s0 = { s0 with done := true } := by
    unfold procRecord
    rw [s0_eval]
    norm_num [sigmaAt_g0, alphaOf_e0_g0]
  refine ⟨by simp [s0_eval], ?_, by rw [hstep], by rw [hstep], by rw [hstep]⟩
  norm_num [sigmaAt_g0, alphaOf_e0_g0]

/-- Claim C2, amended.  For every record processed at a pixel that is not yet
terminated, `alpha = min(0.999, opacity * exp(-sigma))` (this is `alphaOf`),
and the record contributes nothing (color, transmittance and last-contributor
index all unchanged) if and only if `sigma < 0`, or `alpha < 1/255`, or the
updated transmittance `T * (1 - alpha)` would fall to `1e-4` or below (the
early-termination branch, which also leaves all three unchanged). -/
theorem claim_C2_skip_iff (e : ℚ → ℚ) (px py : ℚ) (idx : ℕ) (g : Gauss2D)
    (s : PixState) (hdone : s.done = false) :
    ((procRecord e px py idx g s).T = s.T ∧
     (procRecord e px py idx g s).pixOut = s.pixOut ∧
     (procRecord e px py idx g s).curIdx = s.curIdx) ↔
    (sigmaAt g px py < 0 ∨ alphaOf e g (sigmaAt g px py) < 1/255 ∨
     s.T * (1 - alphaOf e g (sigmaAt g px py)) ≤ 1/10000) := by
  unfold procRecord
  rw [if_neg (by simp [hdone])]
  split_ifs with h2 h3
  · exact iff_of_true ⟨rfl, rfl, rfl⟩ (h2.imp id Or.inl)
  · exact iff_of_true ⟨rfl, rfl, rfl⟩ (Or.inr (Or.inr h3))
  · dsimp only
    constructor
    · rintro ⟨hT, -, -⟩
      exfalso
      have h3' : 1/10000 < s.T * (1 - alphaOf e g (sigmaAt g px py)) :=
        not_le.mp h3
      rw [hT] at h3'
      have ha : 1/255 ≤ alphaOf e g (sigmaAt g px py) :=
        not_lt.mp (not_or.mp h2).2
      nlinarith [hT, h3', ha]
    · rintro (h | h | h)
      · exact absurd (Or.inl h) h2
      · exact absurd (Or.inr h) h2
      · exact absurd h h3

/-- Claim C2, witness for the amended theorem: at the initial state of a pixel
(with one color channel) and the record `g0`, neither side of the equivalence
holds — the record is applied and changes the transmittance. -/
theorem claim_C2_skip_iff_witness :
    (((procRecord e0 0 0 3 g0 (initPixState 1)).T = (initPixState 1).T ∧
      (procRecord e0 0 0 3 g0 (initPixState 1)).pixOut =
        (initPixState 1).pixOut ∧
      (procRecord e0 0 0 3 g0 (initPixState 1)).curIdx =
        (initPixState 1).curIdx) ↔
     (sigmaAt g0 0 0 < 0 ∨ alphaOf e0 g0 (sigmaAt g0 0 0) < 1/255 ∨
      (initPixState 1).T * (1 - alphaOf e0 g0 (sigmaAt g0 0 0)) ≤ 1/10000)) :=
  claim_C2_skip_iff e0 0 0 3 g0 (initPixState 1) rfl

/-- Claim C3.  When a not-yet-terminated pixel meets a record that passes the
skip tests but whose update would drive the transmittance to `1e-4` or below,
the pixel is marked done, and every subsequent record (any suffix, at any
flattened index) leaves the pixel's state untouched: defined control flow,
not an error. -/
theorem claim_C3_early_termination (e : ℚ → ℚ) (px py : ℚ) (idx : ℕ)
    (g : Gauss2D) (s : PixState) (hdone : s.done = false)
    (hskip : ¬(sigmaAt g px py < 0 ∨ alphaOf e g (sigmaAt g px py) < 1/255))
    (hT : s.T * (1 - alphaOf e g (sigmaAt g px py)) ≤ 1/10000)
    (j : ℕ) (rest : List Gauss2D) :
    (procRecord e px py idx g s).done = true ∧
    runFrom e px py (procRecord e px py idx g s) j rest =
      procRecord e px py idx g s := by
  have hstep : procRecord e px py idx g s = { s with done := true } := by
    unfold procRecord
    rw [if_neg (by simp [hdone]), if_neg hskip, if_pos hT]
  rw [hstep]
  exact ⟨rfl, runFrom_done e px py rest _ j rfl⟩

/-- Claim C3, witness: from the reachable state `s0` (`T = 1/1000`), the
record `g0` triggers early termination, and a further suffix `[g0]` leaves
the state unchanged. -/
theorem claim_C3_early_termination_witness :
    (procRecord e0 0 0 1 g0 s0).done = true ∧
    runFrom e0 0 0 (procRecord e0 0 0 1 g0 s0) 2 [g0] =
      procRecord e0 0 0 1 g0 s0 :=
  claim_C3_early_termination e0 0 0 1 g0 s0 (by simp [s0_eval])
    (by norm_num [sigmaAt_g0, alphaOf_e0_g0])
    (by norm_num [s0_eval, sigmaAt_g0, alphaOf_e0_g0]) 2 [g0]

/-- Claim C4.  The transmittance starts at `1`, stays nonnegative, and is
non-increasing as further records of the depth-ordered range are processed
(every applied record multiplies it by `1 - alpha ∈ [0, 1]`; every other
record leaves it unchanged), so the finalized coverage `1 - T` is
non-decreasing in the processed prefix. -/
theorem claim_C4_transmittance_monotone (e : ℚ → ℚ) (px py : ℚ)
    (start dim : ℕ) (l1 l2 : List Gauss2D) (bg : Option (List ℚ)) :
    (initPixState dim).T = 1 ∧
    0 ≤ (runPix e px py start dim (l1 ++ l2)).T ∧
    (runPix e px py start dim (l1 ++ l2)).T ≤ (runPix e px py start dim l1).T ∧
    (finalizePixel bg (runPix e px py start dim l1)).coverage ≤
      (finalizePixel bg (runPix e px py start dim (l1 ++ l2))).coverage := by
  have h0 : (0:ℚ) ≤ (initPixState dim).T := by norm_num [initPixState]
  have h1 := runFrom_T_bounds e px py l1 (initPixState dim) start h0
  have happ : runPix e px py start dim (l1 ++ l2) =
      runFrom e px py (runPix e px py start dim l1) (start + l1.length) l2 := by
    simp only [runPix]
    exact runFrom_append e px py l1 l2 (initPixState dim) start
  have h2 := runFrom_T_bounds e px py l2 (runPix e px py start dim l1)
    (start + l1.length) h1.1
  refine ⟨rfl, ?_, ?_, ?_⟩
  · rw [happ]; exact h2.1
  · rw [happ]; exact h2.2
  · dsimp only [finalizePixel]
    rw [happ]
    linarith [h2.2]

/-- Claim C5.  If every record of the pixel's range is skipped by the
negligible-contribution tests (in particular if the range is empty), the
finalized coverage is `0` and the finalized color is the per-camera
background when one is supplied (the background vector has `dim` entries, one
per channel, per the `[C, COLOR_DIM]` layout) and the zero vector
otherwise. -/
theorem claim_C5_zero_contribution (e : ℚ → ℚ) (px py : ℚ) (start dim : ℕ)
    (recs : List Gauss2D) (bg : Option (List ℚ))
    (hskip : ∀ g ∈ recs,
      sigmaAt g px py < 0 ∨ alphaOf e g (sigmaAt g px py) < 1/255)
    (hbg : ∀ b, bg = some b → b.length = dim) :
    (finalizePixel bg (runPix e px py start dim recs)).coverage = 0 ∧
    (finalizePixel bg (runPix e px py start dim recs)).colors =
      (match bg with
       | some b => b
       | none => List.replicate dim 0) := by
  have hrun : runPix e px py start dim recs = initPixState dim :=
    runFrom_all_skip e px py recs (initPixState dim) start hskip
  rw [hrun]
  constructor
  · norm_num [finalizePixel, initPixState]
  · cases bg with
    | none => rfl
    | some b =>
      have hb := hbg b rfl
      simp only [finalizePixel, initPixState, one_mul]
      rw [← hb]
      exact zipWith_zero_background b

/-- Claim C5, witness: an in-bounds pixel whose single record is skipped
(opacity `0`, hence `alpha = 0 < 1/255`), with a two-channel background
`[3, 4]`: coverage `0` and color equal to the background. -/
theorem claim_C5_zero_contribution_witness :
    (finalizePixel (some [3, 4]) (runPix e0 0 0 0 2 [gskip])).coverage = 0 ∧
    (finalizePixel (some [3, 4]) (runPix e0 0 0 0 2 [gskip])).colors =
      [3, 4] :=
  claim_C5_zero_contribution e0 0 0 0 2 [gskip] (some [3, 4])
    (by
      intro g hg
      rw [List.mem_singleton] at hg
      subst hg
      exact Or.inr (by norm_num [alphaOf, e0, gskip, min_def]))
    (by intro b hb; cases hb; rfl)

/-- Claim C6.  The dense-mode accumulation (per-warp `labeled_partition`
group sums, then one atomic add per distinct gaussian id per warp) produces,
for every primitive id, exactly the sum of the per-record gradient values
that sparse mode writes, grouped by primitive id — an exact equality in the
rational model, i.e. equality up to floating-point summation reordering in
the kernel. -/
theorem claim_C6_dense_sparse_equiv (gidOf : ℕ → ℕ) (f : ℕ → ℚ)
    (nnz g : ℕ) :
    denseGradTotal gidOf f nnz g = sparseGradTotal gidOf f nnz g := by
  unfold denseGradTotal sparseGradTotal warpGroupSum
  rw [sum_filtered_chunks, chunksOf32_join]

/-- Claim C7.  Whenever camera-extrinsic gradients are requested, the output
is the densely accumulated per-camera `[C, 4, 4]` buffer — for each camera
id, the sum of the contributions of all records sharing that camera id —
and this holds for either value of the sparse/dense primitive-gradient flag,
since the accumulation block sits outside the `sparse_grad` branch; when not
requested, no buffer is produced. -/
theorem claim_C7_viewmats_always_dense (sparse_grad : Bool) (cidOf : ℕ → ℕ)
    (vR : ℕ → Fin 3 → Fin 3 → ℚ) (vT : ℕ → Fin 3 → ℚ) (nnz : ℕ) :
    vViewmatsOut sparse_grad true cidOf vR vT nnz =
      some (fun c i j =>
        (((List.range nnz).filter fun idx => cidOf idx == c).map
          fun idx => viewmatRecordContrib vR vT idx i j).sum) ∧
    vViewmatsOut sparse_grad false cidOf vR vT nnz = none := by
  constructor
  · unfold vViewmatsOut
    rw [if_pos rfl]
    refine congrArg some ?_
    funext c i j
    rw [sum_filtered_chunks, chunksOf32_join]
  · unfold vViewmatsOut
    rw [if_neg (by simp)]

/-- Claim C8.  The forward rasterization entry point accepts exactly the
channel counts of the fixed enumerated set, running the kernel instantiated
at that count; any other count produces the descriptive
`Unsupported number of channels` error, with no kernel executed and no
output produced (the error value carries no result). -/
theorem claim_C8_channel_dispatch {α : Type} (channels : ℕ)
    (kernel : ℕ → α) :
    rasterize_to_pixels_fwd_dispatch channels kernel =
      if channels ∈ supportedChannelCounts then .ok (kernel channels)
      else .error ("Unsupported number of channels: " ++ toString channels) := by
  by_cases hmem : channels ∈ supportedChannelCounts
  · rw [if_pos hmem]
    simp only [supportedChannelCounts, List.mem_cons, List.not_mem_nil,
      or_false] at hmem
    rcases hmem with rfl | rfl | rfl | rfl | rfl | rfl | rfl | rfl | rfl |
      rfl | rfl | rfl | rfl | rfl | rfl | rfl | rfl | rfl | rfl <;> rfl
  · rw [if_neg hmem]
    simp only [supportedChannelCounts, List.mem_cons, List.not_mem_nil,
      or_false, not_or] at hmem
    obtain ⟨h1, h2, h3, h4, h5, h6, h7, h8, h9, h10, h11, h12, h13, h14,
      h15, h16, h17, h18, h19⟩ := hmem
    unfold rasterize_to_pixels_fwd_dispatch
    rw [if_neg h1, if_neg h2, if_neg h3, if_neg h4, if_neg h5, if_neg h6,
      if_neg h7, if_neg h8, if_neg h9, if_neg h10, if_neg h11, if_neg h12,
      if_neg h13, if_neg h14, if_neg h15, if_neg h16, if_neg h17, if_neg h18,
      if_neg h19]

/-- Claim C9.  Supplying a compensation gradient without the corresponding
forward compensation tensor fails the validation that runs before the kernel
dispatch: the entry point returns the descriptive assertion error and no
gradient results at all. -/
theorem claim_C9_compensation_check {α β γ : Type} (compensations : Option α)
    (v_compensations : Option β) (run : Unit → γ)
    (hv : v_compensations.isSome = true) (hc : compensations = none) :
    fully_fused_projection_packed_bwd_entry compensations v_compensations run =
      .error "assert failed: compensations.has_value()" := by
  subst hc
  cases v_compensations with
  | none => simp at hv
  | some b => rfl

/-- Claim C9, witness: a concrete call with `v_compensations` present and
`compensations` absent returns the error and no results. -/
theorem claim_C9_compensation_check_witness :
    fully_fused_projection_packed_bwd_entry (none : Option Unit)
      ((some 0) : Option ℕ) (fun _ => (0 : ℕ)) =
      .error "assert failed: compensations.has_value()" :=
  claim_C9_compensation_check (none : Option Unit) (some 0) (fun _ => 0)
    rfl rfl

/-- Claim C10.  The transmittance invariant is strict: after processing any
record range from the initial state, `T > 1e-4`, so the reported coverage is
strictly below `1 - 1e-4`; and the record whose inclusion would drive `T` to
or below `1e-4` contributes nothing at all — its alpha is not applied to `T`,
its color is not accumulated, and it is not recorded as last contributor. -/
theorem claim_C10_strict_cutoff (e : ℚ → ℚ) (px py : ℚ) (start dim : ℕ)
    (recs : List Gauss2D) (bg : Option (List ℚ)) (idx : ℕ) (g : Gauss2D)
    (s : PixState) (hdone : s.done = false)
    (hskip : ¬(sigmaAt g px py < 0 ∨ alphaOf e g (sigmaAt g px py) < 1/255))
    (hT : s.T * (1 - alphaOf e g (sigmaAt g px py)) ≤ 1/10000) :
    1/10000 < (runPix e px py start dim recs).T ∧
    (finalizePixel bg (runPix e px py start dim recs)).coverage
      < 1 - 1/10000 ∧
    (procRecord e px py idx g s).T = s.T ∧
    (procRecord e px py idx g s).pixOut = s.pixOut ∧
    (procRecord e px py idx g s).curIdx = s.curIdx := by
  have hg : 1/10000 < (runPix e px py start dim recs).T := by
    simp only [runPix]
    exact runFrom_T_gt e px py recs (initPixState dim) start
      (by norm_num [initPixState])
  have hstep : procRecord e px py idx g s = { s with done := true } := by
    unfold procRecord
    rw [if_neg (by simp [hdone]), if_neg hskip, if_pos hT]
  refine ⟨hg, ?_, by rw [hstep], by rw [hstep], by rw [hstep]⟩
  dsimp only [finalizePixel]
  linarith

/-- Claim C10, witness: the one-record range `[g0]` ends with
`T = 1/1000 > 1e-4` and coverage `999/1000 < 1 - 1e-4`, and from the state
`s0` the record `g0` (which would drive `T` to `1e-6`) changes neither the
transmittance nor the color nor the last-contributor index. -/
theorem claim_C10_strict_cutoff_witness :
    1/10000 < (runPix e0 0 0 0 1 [g0]).T ∧
    (finalizePixel none (runPix e0 0 0 0 1 [g0])).coverage < 1 - 1/10000 ∧
    (procRecord e0 0 0 1 g0 s0).T = s0.T ∧
    (procRecord e0 0 0 1 g0 s0).pixOut = s0.pixOut ∧
    (procRecord e0 0 0 1 g0 s0).curIdx = s0.curIdx :=
  claim_C10_strict_cutoff e0 0 0 0 1 [g0] none 1 g0 s0 (by simp [s0_eval])
    (by norm_num [sigmaAt_g0, alphaOf_e0_g0])
    (by norm_num [s0_eval, sigmaAt_g0, alphaOf_e0_g0])

end Gsplat
